import Mathlib

/-!
Verification development for the Neon Breacher arcade engine
(`src/game/GameEngine.ts`).  The engine's entity model, particle emitter,
state machine and per-frame simulation step are embedded shallowly:
TypeScript numbers become `ℚ`, the global `Math.random()` stream becomes an
explicit stream `ℕ → ℚ` threaded by position, the host math library's
`Math.cos`/`Math.sin` become abstract functions in an environment record,
and the score/state callbacks plus the sound collaborator become an emitted
event list.
-/

namespace NeonBreacher

/-- Game states, mirroring the `GameState` enum consumed by `GameEngine`. -/
inductive GameState
  | START
  | COUNTDOWN
  | PLAYING
  | GAME_OVER
  | VICTORY
deriving DecidableEq

/-- Difficulty tiers, mirroring the `Difficulty` enum. -/
inductive Difficulty
  | EASY
  | MEDIUM
  | HARD
deriving DecidableEq

/-- Player record: `this.player` in `GameEngine`. -/
structure Player where
  x : ℚ
  y : ℚ
  width : ℚ
  height : ℚ
  dx : ℚ
  dy : ℚ
  color : String
  active : Bool
  cooldown : ℚ
deriving DecidableEq

/-- Enemy record, as pushed by `resetEntities`. -/
structure Enemy where
  x : ℚ
  y : ℚ
  width : ℚ
  height : ℚ
  dx : ℚ
  dy : ℚ
  color : String
  active : Bool
  row : ℕ
  col : ℕ
deriving DecidableEq

/-- Bullet record, owner-tagged by `isPlayerBullet`. -/
structure Bullet where
  x : ℚ
  y : ℚ
  width : ℚ
  height : ℚ
  dx : ℚ
  dy : ℚ
  color : String
  active : Bool
  isPlayerBullet : Bool
deriving DecidableEq

/-- Particle record: `width` stores the radius, `height` is unused. -/
structure Particle where
  x : ℚ
  y : ℚ
  width : ℚ
  height : ℚ
  dx : ℚ
  dy : ℚ
  color : String
  life : ℚ
  maxLife : ℚ
  active : Bool
deriving DecidableEq

/-- Calls the engine makes on its collaborators: the two callbacks
(`onScoreUpdate`, `onStateUpdate`) and the sound manager. -/
inductive Event
  | scoreUpdate : ℚ → Event
  | stateUpdate : GameState → Event
  | playShoot
  | playExplosion
  | resumeAudio
deriving DecidableEq

/-- Host environment: the `Math.random()` stream (read at an explicit
position) and the host trig functions used for particle velocities. -/
structure Env where
  cosF : ℚ → ℚ
  sinF : ℚ → ℚ
  rand : ℕ → ℚ

/-- Rational stand-in for the double constant `Math.PI`. -/
def piQ : ℚ := 3.141592653589793

-- Game constants of `GameEngine`.

def PLAYER_SPEED : ℚ := 5

def BULLET_SPEED : ℚ := 7

def ENEMY_SPEED_BASE : ℚ := 1

def ENEMY_DROP : ℚ := 20

def PARTICLE_LIFE : ℚ := 45

/-- The fixed four-color fire palette of `spawnParticles`. -/
def fireColors : List String := ["#ffffff", "#ffff00", "#ffaa00", "#ff4400"]

/-- Color selection in `spawnParticles`: keep `baseColor` unless the color
draw `rc` exceeds 0.3, in which case index the palette by `⌊rp * 4⌋`
(an out-of-range index, impossible for draws in `[0,1)`, yields `""`). -/
def pickColor (baseColor : String) (rc rp : ℚ) : String :=
  if rc > 0.3 then fireColors.getD (Int.toNat ⌊rp * 4⌋) "" else baseColor

/-- One iteration of the `spawnParticles` loop body, returning the pushed
particle and the next position in the random stream.  Draw order follows
the source: angle, speed, color choice, (conditionally) palette index,
then radius. -/
def spawnOne (env : Env) (pos : ℕ) (x y : ℚ) (baseColor : String) :
    Particle × ℕ :=
  let angle := env.rand pos * piQ * 2
  let speed := env.rand (pos + 1) * 4 + 1
  let rc := env.rand (pos + 2)
  let color := pickColor baseColor rc (env.rand (pos + 3))
  let rpos := if rc > 0.3 then pos + 4 else pos + 3
  ({ x := x, y := y
     width := env.rand rpos * 5 + 2, height := 0
     dx := env.cosF angle * speed, dy := env.sinF angle * speed
     color := color, life := PARTICLE_LIFE, maxLife := PARTICLE_LIFE
     active := true }, rpos + 1)

/-- The `count`-fold loop of `spawnParticles`, in push order. -/
def spawnList (env : Env) (x y : ℚ) (baseColor : String) :
    ℕ → ℕ → List Particle × ℕ
  | pos, 0 => ([], pos)
  | pos, n + 1 =>
    let pr := spawnOne env pos x y baseColor
    let rest := spawnList env x y baseColor pr.2 n
    (pr.1 :: rest.1, rest.2)

/-- The mutable fields of `GameEngine` that the simulation reads or writes
(the canvas context, sound manager and frame clock live with the host). -/
structure Engine where
  width : ℚ
  height : ℚ
  state : GameState
  player : Player
  enemies : List Enemy
  bullets : List Bullet
  particles : List Particle
  score : ℚ
  keys : String → Bool
  enemyDirection : ℚ
  enemySpeed : ℚ
  difficulty : Difficulty
  countdownValue : ℤ
  countdownTimer : ℚ

/-- `spawnParticles(x, y, baseColor, count)`: append `count` particles to the
particle collection, threading the random stream position. -/
def spawnParticles (env : Env) (g : Engine) (pos : ℕ) (x y : ℚ)
    (baseColor : String) (count : ℕ) : Engine × ℕ :=
  let s := spawnList env x y baseColor pos count
  ({ g with particles := g.particles ++ s.1 }, s.2)

/-- `getDifficultyMultipliers`, returning `(speed, freq)`. -/
def getDifficultyMultipliers (d : Difficulty) : ℚ × ℚ :=
  match d with
  | Difficulty.EASY => (1/3, 1/3)
  | Difficulty.MEDIUM => (2/3, 2/3)
  | Difficulty.HARD => (1, 1)

/-- `resize(width, height)`: store the new surface size, move the player
back inside only when `player.x > width`, and re-anchor the player's y. -/
def resize (w h : ℚ) (g : Engine) : Engine :=
  let p1 := if g.player.x > w then { g.player with x := w - g.player.width }
            else g.player
  { g with width := w, height := h, player := { p1 with y := h - 60 } }

/-- One enemy of the 4×8 grid built by `resetEntities` (enemy size 30×20,
padding 20, top row at y = 60). -/
def mkEnemy (width : ℚ) (r c : ℕ) : Enemy :=
  { x := (width - 8 * (30 + 20)) / 2 + (c : ℚ) * (30 + 20)
    y := 60 + (r : ℚ) * (20 + 20)
    width := 30, height := 20, dx := 0, dy := 0
    color := "#39ff14", active := true, row := r, col := c }

/-- The full enemy grid, pushed row-major as in `resetEntities`. -/
def enemyGrid (width : ℚ) : List Enemy :=
  (List.range 4).flatMap fun r => (List.range 8).map fun c => mkEnemy width r c

/-- `resetEntities`: clear bullets and particles, rebuild the enemy grid,
recenter and reactivate the player, reset enemy speed and direction. -/
def resetEntities (g : Engine) : Engine :=
  { g with bullets := [], particles := [], enemies := enemyGrid g.width
           player := { g.player with x := g.width / 2 - 20, active := true }
           enemySpeed := ENEMY_SPEED_BASE, enemyDirection := 1 }

/-- `start(difficulty)`: resume audio, enter COUNTDOWN, zero the score,
reset the entities and seed the countdown at 3. -/
def start (d : Difficulty) (g : Engine) : Engine × List Event :=
  let g1 := resetEntities { g with difficulty := d, state := GameState.COUNTDOWN, score := 0 }
  ({ g1 with countdownValue := 3, countdownTimer := 0 },
   [Event.resumeAudio, Event.stateUpdate GameState.COUNTDOWN, Event.scoreUpdate 0])

/-- `resetToMenu`: back to START with all transient entities cleared. -/
def resetToMenu (g : Engine) : Engine :=
  { g with state := GameState.START, bullets := [], particles := [], enemies := [] }

/-- The COUNTDOWN branch of `update`: accumulate `dt`; on crossing 1000ms
decrement the counter and zero the accumulator; at 0 enter PLAYING. -/
def countdownStep (dt : ℚ) (g : Engine) : Engine × List Event :=
  let t := g.countdownTimer + dt
  if t ≥ 1000 then
    let v := g.countdownValue - 1
    if v ≤ 0 then
      ({ g with countdownTimer := 0, countdownValue := v, state := GameState.PLAYING },
       [Event.stateUpdate GameState.PLAYING])
    else
      ({ g with countdownTimer := 0, countdownValue := v }, [])
  else
    ({ g with countdownTimer := t }, [])

/-- Keyboard movement plus the clamp of the player's x to
`[0, width − player.width]`. -/
def movePlayer (g : Engine) : Engine :=
  let x1 := if g.keys "ArrowLeft" || g.keys "KeyA" then g.player.x - PLAYER_SPEED
            else g.player.x
  let x2 := if g.keys "ArrowRight" || g.keys "KeyD" then x1 + PLAYER_SPEED else x1
  { g with player := { g.player with x := max 0 (min (g.width - g.player.width) x2) } }

/-- Cooldown bookkeeping and player shooting. -/
def shootPhase (g : Engine) : Engine × List Event :=
  let cd := if g.player.cooldown > 0 then g.player.cooldown - 1 else g.player.cooldown
  if (g.keys "Space" || g.keys "ArrowUp" || g.keys "KeyW") && decide (cd ≤ 0) then
    ({ g with
        bullets := g.bullets ++
          [{ x := g.player.x + g.player.width / 2, y := g.player.y
             width := 3, height := 10, dx := 0, dy := -BULLET_SPEED
             color := "#ff00ff", active := true, isPlayerBullet := true }]
        player := { g.player with cooldown := 15 } },
     [Event.playShoot])
  else
    ({ g with player := { g.player with cooldown := cd } }, [])

/-- Advance every bullet by its velocity, deactivating off-screen ones. -/
def moveBullets (g : Engine) : Engine :=
  { g with bullets := g.bullets.map fun b =>
      let y1 := b.y + b.dy
      { b with y := y1, active := if y1 < 0 ∨ y1 > g.height then false else b.active } }

/-- Accumulator for the per-enemy loop of `update`. -/
structure EnemyAcc where
  enemies : List Enemy
  bullets : List Bullet
  state : GameState
  events : List Event
  hitWall : Bool
  pos : ℕ

/-- Body of `livingEnemies.forEach`: advance the enemy, detect a wall hit,
detect reaching the player's line (GAME_OVER), and roll the fire chance
`0.001 · (1 + score/500) · freqMultiplier`. -/
def enemyStep (env : Env) (mult : ℚ × ℚ) (width playerY speed dir score : ℚ)
    (acc : EnemyAcc) (e : Enemy) : EnemyAcc :=
  if e.active = false then { acc with enemies := acc.enemies ++ [e] }
  else
    let x1 := e.x + speed * dir
    let hw := (x1 ≤ 0 ∧ dir = -1) ∨ (x1 + e.width ≥ width ∧ dir = 1)
    let reached := e.y + e.height ≥ playerY
    let fires := env.rand acc.pos < 0.001 * (1 + score / 500) * mult.2
    { enemies := acc.enemies ++ [{ e with x := x1 }]
      bullets := if fires then acc.bullets ++
          [{ x := x1 + e.width / 2, y := e.y + e.height
             width := 3, height := 10, dx := 0
             dy := BULLET_SPEED / 1.5 * mult.1
             color := "#ff3333", active := true, isPlayerBullet := false }]
        else acc.bullets
      state := if reached then GameState.GAME_OVER else acc.state
      events := (if reached then
          acc.events ++ [Event.playExplosion, Event.stateUpdate GameState.GAME_OVER]
        else acc.events)
      hitWall := acc.hitWall || decide hw
      pos := acc.pos + 1 }

/-- The enemy loop over the whole collection (inactive enemies are skipped,
exactly as the `filter` before the `forEach` arranges). -/
def enemyPhase (env : Env) (g : Engine) (pos : ℕ) :
    Engine × ℕ × List Event × Bool :=
  let mult := getDifficultyMultipliers g.difficulty
  let acc := g.enemies.foldl
    (enemyStep env mult g.width g.player.y g.enemySpeed g.enemyDirection g.score)
    { enemies := [], bullets := g.bullets, state := g.state, events := []
      hitWall := false, pos := pos }
  ({ g with enemies := acc.enemies, bullets := acc.bullets, state := acc.state },
   acc.pos, acc.events, acc.hitWall)

/-- The wall-bounce block: flip the direction, drop every active enemy by
`ENEMY_DROP`, and add 0.2 to the formation speed. -/
def wallPhase (hw : Bool) (g : Engine) : Engine :=
  if hw then
    { g with enemyDirection := g.enemyDirection * -1
             enemies := g.enemies.map fun e =>
               if e.active then { e with y := e.y + ENEMY_DROP } else e
             enemySpeed := g.enemySpeed + 0.2 }
  else g

/-- The axis-aligned bounding-box overlap test used for both collision
checks. -/
def rectOverlap (x1 y1 w1 h1 x2 y2 w2 h2 : ℚ) : Bool :=
  decide (x1 < x2 + w2) && decide (x1 + w1 > x2) &&
  decide (y1 < y2 + h2) && decide (y1 + h1 > y2)

/-- Accumulator for a player bullet's sweep over the enemy collection. -/
structure HitAcc where
  enemies : List Enemy
  bActive : Bool
  particles : List Particle
  score : ℚ
  events : List Event
  pos : ℕ

/-- Body of the enemies `forEach` inside the collision pass: note the guard
checks only `e.active`, never the bullet's flag, so one bullet keeps being
tested against the remaining enemies after a hit. -/
def hitStep (env : Env) (b : Bullet) (acc : HitAcc) (e : Enemy) : HitAcc :=
  if e.active = false then { acc with enemies := acc.enemies ++ [e] }
  else if rectOverlap b.x b.y b.width b.height e.x e.y e.width e.height then
    let sp := spawnList env (e.x + e.width / 2) (e.y + e.height / 2) e.color acc.pos 25
    { enemies := acc.enemies ++ [{ e with active := false }]
      bActive := false
      particles := acc.particles ++ sp.1
      score := acc.score + 100
      events := acc.events ++ [Event.playExplosion, Event.scoreUpdate (acc.score + 100)]
      pos := sp.2 }
  else { acc with enemies := acc.enemies ++ [e] }

/-- Accumulator for the collision pass over the bullet collection. -/
structure CollideAcc where
  bullets : List Bullet
  enemies : List Enemy
  particles : List Particle
  score : ℚ
  state : GameState
  events : List Event
  pos : ℕ

/-- Body of `bullets.forEach` in the collision pass: a player bullet sweeps
the enemies; an enemy bullet is tested against the player (40-particle
burst and GAME_OVER on a hit). -/
def collideStep (env : Env) (p : Player) (acc : CollideAcc) (b : Bullet) :
    CollideAcc :=
  if b.active = false then { acc with bullets := acc.bullets ++ [b] }
  else if b.isPlayerBullet then
    let h := acc.enemies.foldl (hitStep env b)
      { enemies := [], bActive := b.active, particles := acc.particles
        score := acc.score, events := acc.events, pos := acc.pos }
    { bullets := acc.bullets ++ [{ b with active := h.bActive }]
      enemies := h.enemies, particles := h.particles, score := h.score
      state := acc.state, events := h.events, pos := h.pos }
  else if rectOverlap b.x b.y b.width b.height p.x p.y p.width p.height then
    let sp := spawnList env (p.x + p.width / 2) (p.y + p.height / 2) p.color acc.pos 40
    { bullets := acc.bullets ++ [{ b with active := false }]
      enemies := acc.enemies
      particles := acc.particles ++ sp.1
      score := acc.score
      state := GameState.GAME_OVER
      events := acc.events ++ [Event.playExplosion, Event.stateUpdate GameState.GAME_OVER]
      pos := sp.2 }
  else { acc with bullets := acc.bullets ++ [b] }

/-- The collision pass over all bullets. -/
def collidePhase (env : Env) (g : Engine) (pos : ℕ) : Engine × ℕ × List Event :=
  let acc := g.bullets.foldl (collideStep env g.player)
    { bullets := [], enemies := g.enemies, particles := g.particles
      score := g.score, state := g.state, events := [], pos := pos }
  ({ g with bullets := acc.bullets, enemies := acc.enemies
            particles := acc.particles, score := acc.score, state := acc.state },
   acc.pos, acc.events)

/-- Per-tick particle physics: integrate, drag 0.95, shrink 0.96, decrement
life, deactivate at life ≤ 0 or radius < 0.2. -/
def stepParticle (p : Particle) : Particle :=
  let life1 := p.life - 1
  let w1 := p.width * 0.96
  { p with x := p.x + p.dx, y := p.y + p.dy, life := life1
           dx := p.dx * 0.95, dy := p.dy * 0.95, width := w1
           active := if life1 ≤ 0 ∨ w1 < 0.2 then false else p.active }

/-- The compaction of the bullet and particle collections. -/
def cleanupPhase (g : Engine) : Engine :=
  { g with bullets := g.bullets.filter (fun b => b.active)
           particles := g.particles.filter (fun p => p.active) }

/-- The enemy / wall / collision / particle / compaction tail of a PLAYING
tick, entered only when the active-enemy subset is non-empty. -/
def formationStep (env : Env) (g3 : Engine) (pos : ℕ) :
    Engine × ℕ × List Event :=
  let e4 := enemyPhase env g3 pos
  let g5 := wallPhase e4.2.2.2 e4.1
  let c6 := collidePhase env g5 e4.2.1
  let g7 := { c6.1 with particles := c6.1.particles.map stepParticle }
  (cleanupPhase g7, c6.2.1, e4.2.2.1 ++ c6.2.2)

/-- The PLAYING branch of `update`: player movement, shooting, bullet
motion, then the instant-win check, then the formation tail. -/
def playingStep (env : Env) (g : Engine) (pos : ℕ) :
    Engine × ℕ × List Event :=
  let s2 := shootPhase (movePlayer g)
  let g3 := moveBullets s2.1
  if g3.enemies.filter (fun e => e.active) = [] then
    ({ g3 with state := GameState.VICTORY }, pos,
     s2.2 ++ [Event.stateUpdate GameState.VICTORY])
  else
    let f := formationStep env g3 pos
    (f.1, f.2.1, s2.2 ++ f.2.2)

/-- `update(dt)`: the full simulation step, returning the new engine state,
the new random-stream position and the collaborator calls in order. -/
def update (env : Env) (dt : ℚ) (g : Engine) (pos : ℕ) :
    Engine × ℕ × List Event :=
  if g.state = GameState.COUNTDOWN then
    let c := countdownStep dt g
    (c.1, pos, c.2)
  else if g.state ≠ GameState.PLAYING then (g, pos, [])
  else playingStep env g pos



/-- C8: in the START, GAME_OVER or VICTORY states, `update(dt)` is a
complete no-op for every `dt`: the engine (state, score, player, enemies,
bullets, particles, enemySpeed, enemyDirection, countdown fields), the
random stream position and the emitted event list are all unchanged, so no
callback is invoked. -/
theorem update_noop_of_terminal (env : Env) (dt : ℚ) (g : Engine) (pos : ℕ)
    (h : g.state = GameState.START ∨ g.state = GameState.GAME_OVER ∨
      g.state = GameState.VICTORY) :
    update env dt g pos = (g, pos, []) := by
  rcases h with h | h | h <;> simp [update, h]

/-- C9: one COUNTDOWN `update` decrements `countdownValue` at most once no
matter how large `dt` is, because the accumulated timer is reset to 0; in
particular a single 3000ms update from a fresh countdown leaves the counter
at 2 and the state still COUNTDOWN. -/
theorem countdown_single_decrement (env : Env) (dt : ℚ) (g : Engine) (pos : ℕ)
    (h : g.state = GameState.COUNTDOWN) :
    ((update env dt g pos).1.countdownValue = g.countdownValue ∨
     (update env dt g pos).1.countdownValue = g.countdownValue - 1) ∧
    (g.countdownTimer = 0 → g.countdownValue = 3 → dt = 3000 →
      (update env dt g pos).1.countdownValue = 2 ∧
      (update env dt g pos).1.state = GameState.COUNTDOWN) := by
  simp only [update, h, if_pos rfl, reduceIte, countdownStep]
  constructor
  · split_ifs <;> simp
  · intro h0 h3 hdt
    norm_num [h0, h3, hdt]


/-- C4: `start(difficulty)` seeds `countdownValue` to 3 and enters
COUNTDOWN (invoking the state callback with COUNTDOWN); three successive
1000ms updates count 2, 1, then reach PLAYING, with the state callback
invoked with PLAYING exactly on the third call and on no earlier one. -/
theorem start_countdown_to_playing (env : Env) (d : Difficulty) (g : Engine)
    (p1 p2 p3 : ℕ) :
    (start d g).1.countdownValue = 3 ∧
    (start d g).1.state = GameState.COUNTDOWN ∧
    Event.stateUpdate GameState.COUNTDOWN ∈ (start d g).2 ∧
    (update env 1000 (start d g).1 p1).1.state = GameState.COUNTDOWN ∧
    (update env 1000 (start d g).1 p1).1.countdownValue = 2 ∧
    (update env 1000 (start d g).1 p1).2.2 = [] ∧
    (update env 1000 (update env 1000 (start d g).1 p1).1 p2).1.state = GameState.COUNTDOWN ∧
    (update env 1000 (update env 1000 (start d g).1 p1).1 p2).1.countdownValue = 1 ∧
    (update env 1000 (update env 1000 (start d g).1 p1).1 p2).2.2 = [] ∧
    (update env 1000 (update env 1000 (update env 1000 (start d g).1 p1).1 p2).1 p3).1.state
      = GameState.PLAYING ∧
    (update env 1000 (update env 1000 (update env 1000 (start d g).1 p1).1 p2).1 p3).2.2
      = [Event.stateUpdate GameState.PLAYING] := by
  norm_num [start, resetEntities, update, countdownStep]

/-- C2 (amended): `resize(width, height)` updates the surface dimensions
and re-anchors the player at y = height − 60; the horizontal reposition to
`width − player.width` happens only when `player.x > width` (the full
width), and otherwise the x coordinate is left untouched — even when it
already exceeds `width − player.width`. -/
theorem resize_spec (w h : ℚ) (g : Engine) :
    (resize w h g).width = w ∧ (resize w h g).height = h ∧
    (resize w h g).player.y = h - 60 ∧
    (g.player.x > w → (resize w h g).player.x = w - g.player.width) ∧
    (¬ g.player.x > w → (resize w h g).player.x = g.player.x) := by
  unfold resize
  split_ifs with hx <;> simp [hx]


@[simp] lemma movePlayer_width (g : Engine) : (movePlayer g).width = g.width := rfl

@[simp] lemma movePlayer_enemies (g : Engine) : (movePlayer g).enemies = g.enemies := rfl

@[simp] lemma movePlayer_bullets (g : Engine) : (movePlayer g).bullets = g.bullets := rfl

@[simp] lemma movePlayer_particles (g : Engine) : (movePlayer g).particles = g.particles := rfl

@[simp] lemma movePlayer_score (g : Engine) : (movePlayer g).score = g.score := rfl

@[simp] lemma movePlayer_state (g : Engine) : (movePlayer g).state = g.state := rfl

@[simp] lemma movePlayer_enemySpeed (g : Engine) : (movePlayer g).enemySpeed = g.enemySpeed := rfl

@[simp] lemma movePlayer_enemyDirection (g : Engine) : (movePlayer g).enemyDirection = g.enemyDirection := rfl

@[simp] lemma movePlayer_player_width (g : Engine) : (movePlayer g).player.width = g.player.width := rfl

@[simp] lemma movePlayer_player_y (g : Engine) : (movePlayer g).player.y = g.player.y := rfl

@[simp] lemma shootPhase_enemies (g : Engine) : (shootPhase g).1.enemies = g.enemies := by
  simp only [shootPhase]; split_ifs <;> rfl

@[simp] lemma shootPhase_particles (g : Engine) : (shootPhase g).1.particles = g.particles := by
  simp only [shootPhase]; split_ifs <;> rfl

@[simp] lemma shootPhase_score (g : Engine) : (shootPhase g).1.score = g.score := by
  simp only [shootPhase]; split_ifs <;> rfl

@[simp] lemma shootPhase_state (g : Engine) : (shootPhase g).1.state = g.state := by
  simp only [shootPhase]; split_ifs <;> rfl

@[simp] lemma shootPhase_width (g : Engine) : (shootPhase g).1.width = g.width := by
  simp only [shootPhase]; split_ifs <;> rfl

@[simp] lemma shootPhase_enemySpeed (g : Engine) : (shootPhase g).1.enemySpeed = g.enemySpeed := by
  simp only [shootPhase]; split_ifs <;> rfl

@[simp] lemma shootPhase_enemyDirection (g : Engine) : (shootPhase g).1.enemyDirection = g.enemyDirection := by
  simp only [shootPhase]; split_ifs <;> rfl

@[simp] lemma shootPhase_player_x (g : Engine) : (shootPhase g).1.player.x = g.player.x := by
  simp only [shootPhase]; split_ifs <;> rfl

@[simp] lemma shootPhase_player_y (g : Engine) : (shootPhase g).1.player.y = g.player.y := by
  simp only [shootPhase]; split_ifs <;> rfl

@[simp] lemma shootPhase_player_width (g : Engine) : (shootPhase g).1.player.width = g.player.width := by
  simp only [shootPhase]; split_ifs <;> rfl

/-- The bullets after the shooting phase: unchanged, or with one player
bullet appended. -/
lemma shootPhase_bullets (g : Engine) :
    (shootPhase g).1.bullets = g.bullets ∨
    ∃ nb : Bullet, nb.isPlayerBullet = true ∧ (shootPhase g).1.bullets = g.bullets ++ [nb] := by
  simp only [shootPhase]
  split_ifs <;> first
    | exact Or.inl rfl
    | exact Or.inr ⟨_, rfl, rfl⟩

@[simp] lemma moveBullets_player (g : Engine) : (moveBullets g).player = g.player := rfl

@[simp] lemma moveBullets_enemies (g : Engine) : (moveBullets g).enemies = g.enemies := rfl

@[simp] lemma moveBullets_particles (g : Engine) : (moveBullets g).particles = g.particles := rfl

@[simp] lemma moveBullets_score (g : Engine) : (moveBullets g).score = g.score := rfl

@[simp] lemma moveBullets_state (g : Engine) : (moveBullets g).state = g.state := rfl

@[simp] lemma moveBullets_width (g : Engine) : (moveBullets g).width = g.width := rfl

@[simp] lemma moveBullets_enemySpeed (g : Engine) : (moveBullets g).enemySpeed = g.enemySpeed := rfl

@[simp] lemma moveBullets_enemyDirection (g : Engine) : (moveBullets g).enemyDirection = g.enemyDirection := rfl

@[simp] lemma enemyPhase_player (env : Env) (g : Engine) (pos : ℕ) :
    (enemyPhase env g pos).1.player = g.player := rfl

@[simp] lemma enemyPhase_width (env : Env) (g : Engine) (pos : ℕ) :
    (enemyPhase env g pos).1.width = g.width := rfl

@[simp] lemma enemyPhase_particles (env : Env) (g : Engine) (pos : ℕ) :
    (enemyPhase env g pos).1.particles = g.particles := rfl

@[simp] lemma enemyPhase_score (env : Env) (g : Engine) (pos : ℕ) :
    (enemyPhase env g pos).1.score = g.score := rfl

@[simp] lemma enemyPhase_enemySpeed (env : Env) (g : Engine) (pos : ℕ) :
    (enemyPhase env g pos).1.enemySpeed = g.enemySpeed := rfl

@[simp] lemma enemyPhase_enemyDirection (env : Env) (g : Engine) (pos : ℕ) :
    (enemyPhase env g pos).1.enemyDirection = g.enemyDirection := rfl

@[simp] lemma wallPhase_player (hw : Bool) (g : Engine) : (wallPhase hw g).player = g.player := by
  unfold wallPhase; split_ifs <;> rfl

@[simp] lemma wallPhase_width (hw : Bool) (g : Engine) : (wallPhase hw g).width = g.width := by
  unfold wallPhase; split_ifs <;> rfl

@[simp] lemma wallPhase_bullets (hw : Bool) (g : Engine) : (wallPhase hw g).bullets = g.bullets := by
  unfold wallPhase; split_ifs <;> rfl

@[simp] lemma wallPhase_particles (hw : Bool) (g : Engine) : (wallPhase hw g).particles = g.particles := by
  unfold wallPhase; split_ifs <;> rfl

@[simp] lemma wallPhase_score (hw : Bool) (g : Engine) : (wallPhase hw g).score = g.score := by
  unfold wallPhase; split_ifs <;> rfl

@[simp] lemma wallPhase_state (hw : Bool) (g : Engine) : (wallPhase hw g).state = g.state := by
  unfold wallPhase; split_ifs <;> rfl

@[simp] lemma collidePhase_player (env : Env) (g : Engine) (pos : ℕ) :
    (collidePhase env g pos).1.player = g.player := rfl

@[simp] lemma collidePhase_width (env : Env) (g : Engine) (pos : ℕ) :
    (collidePhase env g pos).1.width = g.width := rfl

@[simp] lemma collidePhase_enemySpeed (env : Env) (g : Engine) (pos : ℕ) :
    (collidePhase env g pos).1.enemySpeed = g.enemySpeed := rfl

@[simp] lemma collidePhase_enemyDirection (env : Env) (g : Engine) (pos : ℕ) :
    (collidePhase env g pos).1.enemyDirection = g.enemyDirection := rfl

@[simp] lemma cleanupPhase_player (g : Engine) : (cleanupPhase g).player = g.player := rfl

@[simp] lemma cleanupPhase_width (g : Engine) : (cleanupPhase g).width = g.width := rfl

@[simp] lemma cleanupPhase_state (g : Engine) : (cleanupPhase g).state = g.state := rfl

@[simp] lemma cleanupPhase_enemies (g : Engine) : (cleanupPhase g).enemies = g.enemies := rfl

@[simp] lemma cleanupPhase_score (g : Engine) : (cleanupPhase g).score = g.score := rfl

@[simp] lemma cleanupPhase_enemySpeed (g : Engine) : (cleanupPhase g).enemySpeed = g.enemySpeed := rfl

@[simp] lemma cleanupPhase_enemyDirection (g : Engine) : (cleanupPhase g).enemyDirection = g.enemyDirection := rfl

/-- Reduction of `update` in the COUNTDOWN state. -/
lemma update_countdown (env : Env) (dt : ℚ) (g : Engine) (pos : ℕ)
    (h : g.state = GameState.COUNTDOWN) :
    update env dt g pos = ((countdownStep dt g).1, pos, (countdownStep dt g).2) := by
  simp [update, h]

/-- Reduction of `update` in the PLAYING state. -/
lemma update_playing (env : Env) (dt : ℚ) (g : Engine) (pos : ℕ)
    (h : g.state = GameState.PLAYING) :
    update env dt g pos = playingStep env g pos := by
  simp [update, h]

@[simp] lemma formationStep_player (env : Env) (g : Engine) (pos : ℕ) :
    (formationStep env g pos).1.player = g.player := by
  simp [formationStep]

@[simp] lemma formationStep_width (env : Env) (g : Engine) (pos : ℕ) :
    (formationStep env g pos).1.width = g.width := by
  simp [formationStep]

/-- The player's x after `movePlayer` is the clamp of some value. -/
lemma movePlayer_player_x (g : Engine) :
    ∃ x2, (movePlayer g).player.x = max 0 (min (g.width - g.player.width) x2) :=
  ⟨_, rfl⟩

/-- C7: after every PLAYING update, under any keyboard state, the player's
x lies in [0, surfaceWidth − playerWidth] (given surfaceWidth ≥
playerWidth). -/
theorem player_x_clamped (env : Env) (dt : ℚ) (g : Engine) (pos : ℕ)
    (hst : g.state = GameState.PLAYING) (hpw : g.player.width ≤ g.width) :
    0 ≤ (update env dt g pos).1.player.x ∧
    (update env dt g pos).1.player.x ≤ g.width - g.player.width := by
  obtain ⟨x2, hx2⟩ := movePlayer_player_x g
  have hb : 0 ≤ max 0 (min (g.width - g.player.width) x2) ∧
      max 0 (min (g.width - g.player.width) x2) ≤ g.width - g.player.width :=
    ⟨le_max_left 0 _, max_le (by linarith) (min_le_left _ _)⟩
  rw [update_playing env dt g pos hst]
  simp only [playingStep]
  split_ifs with hemp
  · simpa [hx2] using hb
  · simpa [hx2] using hb



/-- The moved-bullet list keeps each bullet's owner flag. -/
lemma moveBullets_countP (g : Engine) (p : Bullet → Bool)
    (hp : ∀ b : Bullet, ∀ y1 : ℚ, ∀ a : Bool, p { b with y := y1, active := a } = p b) :
    (moveBullets g).bullets.countP p = g.bullets.countP p := by
  simp only [moveBullets]
  rw [List.countP_map]
  congr 1
  funext b
  simpa using hp b _ _

/-- C3: if every enemy is inactive at the start of a PLAYING update, that
update sets the state to VICTORY and invokes the state callback with
VICTORY, returning before any enemy motion, wall, fire or collision logic:
enemies, particles, score, enemy speed and direction are unchanged and the
number of enemy-owned bullets does not grow. -/
theorem victory_on_empty_formation (env : Env) (dt : ℚ) (g : Engine) (pos : ℕ)
    (hst : g.state = GameState.PLAYING)
    (hempty : g.enemies.filter (fun e => e.active) = []) :
    (update env dt g pos).1.state = GameState.VICTORY ∧
    Event.stateUpdate GameState.VICTORY ∈ (update env dt g pos).2.2 ∧
    (update env dt g pos).1.enemies = g.enemies ∧
    (update env dt g pos).1.particles = g.particles ∧
    (update env dt g pos).1.score = g.score ∧
    (update env dt g pos).1.enemySpeed = g.enemySpeed ∧
    (update env dt g pos).1.enemyDirection = g.enemyDirection ∧
    (update env dt g pos).1.bullets.countP (fun b => !b.isPlayerBullet) =
      g.bullets.countP (fun b => !b.isPlayerBullet) := by
  rw [update_playing env dt g pos hst]
  have hc : (moveBullets (shootPhase (movePlayer g)).1).enemies.filter
      (fun e => e.active) = [] := by
    simpa using hempty
  simp only [playingStep, if_pos hc]
  refine ⟨by simp, by simp, by simp, by simp, by simp, by simp, by simp, ?_⟩
  show (moveBullets (shootPhase (movePlayer g)).1).bullets.countP _ = _
  rw [moveBullets_countP _ _ (by intro b y1 a; rfl)]
  rcases shootPhase_bullets (movePlayer g) with h | ⟨nb, hnb, h⟩
  · rw [h]; rfl
  · rw [h, List.countP_append]
    simp [List.countP, List.countP.go, hnb]


/-- What the enemy loop does to one enemy record: active enemies advance by
`speed · dir`, inactive ones are copied unchanged. -/
def moveOne (s d : ℚ) (e : Enemy) : Enemy :=
  if e.active then { e with x := e.x + s * d } else e

/-- The wall-hit test of the enemy loop, on the already-advanced x. -/
def wallHit (s d w : ℚ) (e : Enemy) : Bool :=
  e.active && decide ((e.x + s * d ≤ 0 ∧ d = -1) ∨ (e.x + s * d + e.width ≥ w ∧ d = 1))

/-- The reach-the-player-line test of the enemy loop. -/
def reaches (py : ℚ) (e : Enemy) : Bool :=
  e.active && decide (e.y + e.height ≥ py)

lemma enemyStep_enemies (env : Env) (mult : ℚ × ℚ) (w py s d sc : ℚ)
    (acc : EnemyAcc) (e : Enemy) :
    (enemyStep env mult w py s d sc acc e).enemies = acc.enemies ++ [moveOne s d e] := by
  simp only [enemyStep, moveOne]
  cases he : e.active <;> simp [he]

lemma enemyStep_pos (env : Env) (mult : ℚ × ℚ) (w py s d sc : ℚ)
    (acc : EnemyAcc) (e : Enemy) :
    (enemyStep env mult w py s d sc acc e).pos =
      if e.active then acc.pos + 1 else acc.pos := by
  simp only [enemyStep]
  cases he : e.active <;> simp [he]

lemma enemyStep_hitWall (env : Env) (mult : ℚ × ℚ) (w py s d sc : ℚ)
    (acc : EnemyAcc) (e : Enemy) :
    (enemyStep env mult w py s d sc acc e).hitWall = (acc.hitWall || wallHit s d w e) := by
  simp only [enemyStep, wallHit]
  cases he : e.active <;> simp [he]

lemma enemyStep_state (env : Env) (mult : ℚ × ℚ) (w py s d sc : ℚ)
    (acc : EnemyAcc) (e : Enemy) :
    (enemyStep env mult w py s d sc acc e).state =
      if reaches py e then GameState.GAME_OVER else acc.state := by
  by_cases he : e.active = false
  · simp [enemyStep, reaches, he]
  · have he' : e.active = true := by simpa using he
    simp [enemyStep, reaches, he, he']

lemma enemyStep_events_of_no_reach (env : Env) (mult : ℚ × ℚ) (w py s d sc : ℚ)
    (acc : EnemyAcc) (e : Enemy) (h : reaches py e = false) :
    (enemyStep env mult w py s d sc acc e).events = acc.events := by
  by_cases he : e.active = false
  · simp [enemyStep, he]
  · have he' : e.active = true := by simpa using he
    simp only [reaches, he', Bool.true_and, decide_eq_false_iff_not] at h
    simp [enemyStep, he, h]

lemma enemyStep_bullets_of_no_fire (env : Env) (mult : ℚ × ℚ) (w py s d sc : ℚ)
    (acc : EnemyAcc) (e : Enemy)
    (h : ∀ k : ℕ, ¬ env.rand k < 0.001 * (1 + sc / 500) * mult.2) :
    (enemyStep env mult w py s d sc acc e).bullets = acc.bullets := by
  by_cases he : e.active = false
  · simp [enemyStep, he]
  · simp [enemyStep, he, h acc.pos]

lemma enemyFold_enemies (env : Env) (mult : ℚ × ℚ) (w py s d sc : ℚ)
    (es : List Enemy) :
    ∀ acc : EnemyAcc,
      (es.foldl (enemyStep env mult w py s d sc) acc).enemies =
        acc.enemies ++ es.map (moveOne s d) := by
  induction es with
  | nil => intro acc; simp
  | cons e tl ih =>
    intro acc
    rw [List.foldl_cons, ih, enemyStep_enemies]
    simp

lemma enemyFold_pos (env : Env) (mult : ℚ × ℚ) (w py s d sc : ℚ)
    (es : List Enemy) :
    ∀ acc : EnemyAcc,
      (es.foldl (enemyStep env mult w py s d sc) acc).pos =
        acc.pos + es.countP (fun e => e.active) := by
  induction es with
  | nil => intro acc; simp
  | cons e tl ih =>
    intro acc
    rw [List.foldl_cons, ih, enemyStep_pos, List.countP_cons]
    cases he : e.active <;> simp [he] <;> omega

lemma enemyFold_hitWall (env : Env) (mult : ℚ × ℚ) (w py s d sc : ℚ)
    (es : List Enemy) :
    ∀ acc : EnemyAcc,
      (es.foldl (enemyStep env mult w py s d sc) acc).hitWall =
        (acc.hitWall || es.any (wallHit s d w)) := by
  induction es with
  | nil => intro acc; simp
  | cons e tl ih =>
    intro acc
    rw [List.foldl_cons, ih, enemyStep_hitWall]
    simp [Bool.or_assoc]

lemma enemyFold_state (env : Env) (mult : ℚ × ℚ) (w py s d sc : ℚ)
    (es : List Enemy) :
    ∀ acc : EnemyAcc,
      (es.foldl (enemyStep env mult w py s d sc) acc).state =
        if es.any (reaches py) then GameState.GAME_OVER else acc.state := by
  induction es with
  | nil => intro acc; simp
  | cons e tl ih =>
    intro acc
    rw [List.foldl_cons, ih, enemyStep_state]
    cases hr : reaches py e <;> cases ht : tl.any (reaches py) <;> simp [hr, ht]

lemma enemyFold_events_of_no_reach (env : Env) (mult : ℚ × ℚ) (w py s d sc : ℚ)
    (es : List Enemy) :
    ∀ acc : EnemyAcc, (∀ e ∈ es, reaches py e = false) →
      (es.foldl (enemyStep env mult w py s d sc) acc).events = acc.events := by
  induction es with
  | nil => intro acc _; simp
  | cons e tl ih =>
    intro acc h
    rw [List.foldl_cons, ih _ (fun x hx => h x (List.mem_cons_of_mem e hx)),
      enemyStep_events_of_no_reach]
    exact h e (List.mem_cons_self e tl)

lemma enemyFold_bullets_of_no_fire (env : Env) (mult : ℚ × ℚ) (w py s d sc : ℚ)
    (es : List Enemy)
    (h : ∀ k : ℕ, ¬ env.rand k < 0.001 * (1 + sc / 500) * mult.2) :
    ∀ acc : EnemyAcc,
      (es.foldl (enemyStep env mult w py s d sc) acc).bullets = acc.bullets := by
  induction es with
  | nil => intro acc; simp
  | cons e tl ih =>
    intro acc
    rw [List.foldl_cons, ih, enemyStep_bullets_of_no_fire]
    exact h


/-- Number of particles pushed by the emitter loop. -/
lemma spawnList_length (env : Env) (x y : ℚ) (c : String) :
    ∀ (n : ℕ) (pos : ℕ), (spawnList env x y c pos n).1.length = n := by
  intro n
  induction n with
  | zero => intro pos; rfl
  | succ n ih => intro pos; simp [spawnList, ih]

/-- The hit test a player bullet applies to one enemy record. -/
def hitsB (b : Bullet) (e : Enemy) : Bool :=
  e.active && rectOverlap b.x b.y b.width b.height e.x e.y e.width e.height

/-- What the collision sweep does to one enemy record. -/
def hitOne (b : Bullet) (e : Enemy) : Enemy :=
  if hitsB b e then { e with active := false } else e

/-- Recognizer for score-callback events. -/
def isScoreEv : Event → Bool := fun ev =>
  match ev with
  | Event.scoreUpdate _ => true
  | _ => false

lemma hitStep_enemies (env : Env) (b : Bullet) (acc : HitAcc) (e : Enemy) :
    (hitStep env b acc e).enemies = acc.enemies ++ [hitOne b e] := by
  by_cases he : e.active = false
  · simp [hitStep, hitOne, hitsB, he]
  · have he' : e.active = true := by simpa using he
    by_cases hov : rectOverlap b.x b.y b.width b.height e.x e.y e.width e.height = true
    · simp [hitStep, hitOne, hitsB, he, he', hov]
    · simp [hitStep, hitOne, hitsB, he, he', hov, Bool.eq_false_iff.2 hov]

lemma hitStep_score (env : Env) (b : Bullet) (acc : HitAcc) (e : Enemy) :
    (hitStep env b acc e).score = acc.score + if hitsB b e then 100 else 0 := by
  by_cases he : e.active = false
  · simp [hitStep, hitsB, he]
  · have he' : e.active = true := by simpa using he
    by_cases hov : rectOverlap b.x b.y b.width b.height e.x e.y e.width e.height = true
    · simp [hitStep, hitsB, he, he', hov]
    · simp [hitStep, hitsB, he, he', hov]

lemma hitStep_bActive (env : Env) (b : Bullet) (acc : HitAcc) (e : Enemy) :
    (hitStep env b acc e).bActive = (acc.bActive && !hitsB b e) := by
  by_cases he : e.active = false
  · simp [hitStep, hitsB, he]
  · have he' : e.active = true := by simpa using he
    by_cases hov : rectOverlap b.x b.y b.width b.height e.x e.y e.width e.height = true
    · simp [hitStep, hitsB, he, he', hov]
    · simp [hitStep, hitsB, he, he', hov]

lemma hitStep_events_count (env : Env) (b : Bullet) (acc : HitAcc) (e : Enemy) :
    (hitStep env b acc e).events.countP isScoreEv =
      acc.events.countP isScoreEv + if hitsB b e then 1 else 0 := by
  by_cases he : e.active = false
  · simp [hitStep, hitsB, he]
  · have he' : e.active = true := by simpa using he
    by_cases hov : rectOverlap b.x b.y b.width b.height e.x e.y e.width e.height = true
    · simp [hitStep, hitsB, he, he', hov, isScoreEv]
    · simp [hitStep, hitsB, he, he', hov]

lemma hitFold_enemies (env : Env) (b : Bullet) (es : List Enemy) :
    ∀ acc : HitAcc,
      (es.foldl (hitStep env b) acc).enemies = acc.enemies ++ es.map (hitOne b) := by
  induction es with
  | nil => intro acc; simp
  | cons e tl ih => intro acc; rw [List.foldl_cons, ih, hitStep_enemies]; simp

lemma hitFold_score (env : Env) (b : Bullet) (es : List Enemy) :
    ∀ acc : HitAcc,
      (es.foldl (hitStep env b) acc).score = acc.score + 100 * (es.countP (hitsB b) : ℚ) := by
  induction es with
  | nil => intro acc; simp
  | cons e tl ih =>
    intro acc
    rw [List.foldl_cons, ih, hitStep_score, List.countP_cons]
    cases hh : hitsB b e <;> simp [hh] <;> push_cast <;> ring

lemma hitFold_bActive (env : Env) (b : Bullet) (es : List Enemy) :
    ∀ acc : HitAcc,
      (es.foldl (hitStep env b) acc).bActive = (acc.bActive && !(es.any (hitsB b))) := by
  induction es with
  | nil => intro acc; simp
  | cons e tl ih =>
    intro acc
    rw [List.foldl_cons, ih, hitStep_bActive]
    cases hh : hitsB b e <;> simp [hh]

lemma hitFold_events_count (env : Env) (b : Bullet) (es : List Enemy) :
    ∀ acc : HitAcc,
      (es.foldl (hitStep env b) acc).events.countP isScoreEv =
        acc.events.countP isScoreEv + es.countP (hitsB b) := by
  induction es with
  | nil => intro acc; simp
  | cons e tl ih =>
    intro acc
    rw [List.foldl_cons, ih, hitStep_events_count, List.countP_cons]
    cases hh : hitsB b e <;> simp [hh] <;> omega

/-- The enemy list after one bullet of the collision sweep. -/
lemma collideStep_enemies (env : Env) (p : Player) (acc : CollideAcc) (b : Bullet) :
    (collideStep env p acc b).enemies =
      if b.active && b.isPlayerBullet then acc.enemies.map (hitOne b) else acc.enemies := by
  by_cases hb : b.active = false
  · simp [collideStep, hb]
  · have hb' : b.active = true := by simpa using hb
    by_cases hpb : b.isPlayerBullet = true
    · simp [collideStep, hb, hb', hpb, hitFold_enemies]
    · have hpb' : b.isPlayerBullet = false := by simpa using hpb
      by_cases hov : rectOverlap b.x b.y b.width b.height p.x p.y p.width p.height = true
      · simp [collideStep, hb, hb', hpb', hov]
      · simp [collideStep, hb, hb', hpb', hov]

/-- The collision sweep never moves an enemy: y-coordinates are unchanged. -/
lemma collideFold_enemies_y (env : Env) (p : Player) (bs : List Bullet) :
    ∀ acc : CollideAcc,
      ((bs.foldl (collideStep env p) acc).enemies).map (fun e => e.y) =
        acc.enemies.map (fun e => e.y) := by
  induction bs with
  | nil => intro acc; simp
  | cons b tl ih =>
    intro acc
    rw [List.foldl_cons, ih, collideStep_enemies]
    split_ifs with h
    · rw [List.map_map]
      congr 1
      funext e
      simp only [Function.comp_apply, hitOne]
      split_ifs <;> rfl
    · rfl


/-- Effect of the formation tail when some active enemy hits a wall:
direction flips, active enemies drop by `ENEMY_DROP`, speed gains 0.2. -/
lemma formationStep_wall (env : Env) (g3 : Engine) (pos : ℕ)
    (hw : g3.enemies.any (wallHit g3.enemySpeed g3.enemyDirection g3.width) = true) :
    (formationStep env g3 pos).1.enemyDirection = g3.enemyDirection * -1 ∧
    (formationStep env g3 pos).1.enemySpeed = g3.enemySpeed + 0.2 ∧
    (formationStep env g3 pos).1.enemies.map (fun e => e.y) =
      g3.enemies.map (fun e => if e.active then e.y + ENEMY_DROP else e.y) := by
  simp only [formationStep, enemyPhase]
  rw [enemyFold_hitWall, enemyFold_enemies]
  simp only [Bool.false_or, List.nil_append, hw, wallPhase, if_pos rfl]
  refine ⟨by simp, by simp, ?_⟩
  have hcy := collideFold_enemies_y
  simp only [collidePhase] at hcy ⊢
  rw [cleanupPhase_enemies]
  simp only [hcy]
  simp only [if_true, List.map_map]
  congr 1
  funext e
  simp only [Function.comp_apply, moveOne]
  by_cases ha : e.active = true
  · simp [ha]
  · simp [ha]


/-- C5: during a PLAYING update, if an active enemy sits at x = 0 while the
formation moves left (enemyDirection = −1, non-negative speed), then by the
end of the call the direction is +1, enemySpeed has grown by exactly 0.2,
and every active enemy's y has increased by exactly `ENEMY_DROP` = 20
(inactive enemies keep their y). -/
theorem wall_bounce_left (env : Env) (dt : ℚ) (g : Engine) (pos : ℕ)
    (hst : g.state = GameState.PLAYING) (hdir : g.enemyDirection = -1)
    (hsp : 0 ≤ g.enemySpeed) (e0 : Enemy) (he0mem : e0 ∈ g.enemies)
    (he0act : e0.active = true) (he0x : e0.x = 0) :
    (update env dt g pos).1.enemyDirection = 1 ∧
    (update env dt g pos).1.enemySpeed = g.enemySpeed + 0.2 ∧
    (update env dt g pos).1.enemies.map (fun e => e.y) =
      g.enemies.map (fun e => if e.active then e.y + ENEMY_DROP else e.y) := by
  rw [update_playing env dt g pos hst]
  simp only [playingStep]
  have hne : ¬ ((moveBullets (shootPhase (movePlayer g)).1).enemies.filter
      (fun e => e.active) = []) := by
    simp only [moveBullets_enemies, shootPhase_enemies, movePlayer_enemies]
    intro hcon
    have hmem : e0 ∈ g.enemies.filter (fun e => e.active) :=
      List.mem_filter.2 ⟨he0mem, by simp [he0act]⟩
    rw [hcon] at hmem
    exact absurd hmem (List.not_mem_nil e0)
  rw [if_neg hne]
  have hw : (moveBullets (shootPhase (movePlayer g)).1).enemies.any
      (wallHit (moveBullets (shootPhase (movePlayer g)).1).enemySpeed
        (moveBullets (shootPhase (movePlayer g)).1).enemyDirection
        (moveBullets (shootPhase (movePlayer g)).1).width) = true := by
    simp only [moveBullets_enemies, shootPhase_enemies, movePlayer_enemies,
      moveBullets_enemySpeed, shootPhase_enemySpeed, movePlayer_enemySpeed,
      moveBullets_enemyDirection, shootPhase_enemyDirection, movePlayer_enemyDirection]
    refine List.any_eq_true.2 ⟨e0, he0mem, ?_⟩
    simp only [wallHit, he0act, he0x, hdir, Bool.true_and, decide_eq_true_eq]
    refine Or.inl ⟨by linarith, by trivial⟩
  obtain ⟨h1, h2, h3⟩ := formationStep_wall env (moveBullets (shootPhase (movePlayer g)).1) pos hw
  refine ⟨?_, ?_, ?_⟩
  · show (formationStep env (moveBullets (shootPhase (movePlayer g)).1) pos).1.enemyDirection = 1
    rw [h1]
    simp only [moveBullets_enemyDirection, shootPhase_enemyDirection, movePlayer_enemyDirection, hdir]
    norm_num
  · show (formationStep env (moveBullets (shootPhase (movePlayer g)).1) pos).1.enemySpeed
      = g.enemySpeed + 0.2
    rw [h2]
    simp only [moveBullets_enemySpeed, shootPhase_enemySpeed, movePlayer_enemySpeed]
  · show (formationStep env (moveBullets (shootPhase (movePlayer g)).1) pos).1.enemies.map
      (fun e => e.y) = _
    rw [h3]
    simp only [moveBullets_enemies, shootPhase_enemies, movePlayer_enemies]


@[simp] lemma movePlayer_keys (g : Engine) : (movePlayer g).keys = g.keys := rfl

@[simp] lemma movePlayer_difficulty (g : Engine) : (movePlayer g).difficulty = g.difficulty := rfl

@[simp] lemma shootPhase_difficulty (g : Engine) : (shootPhase g).1.difficulty = g.difficulty := by
  simp only [shootPhase]; split_ifs <;> rfl

@[simp] lemma moveBullets_difficulty (g : Engine) : (moveBullets g).difficulty = g.difficulty := rfl

@[simp] lemma moveBullets_height (g : Engine) : (moveBullets g).height = g.height := rfl

@[simp] lemma shootPhase_height (g : Engine) : (shootPhase g).1.height = g.height := by
  simp only [shootPhase]; split_ifs <;> rfl

@[simp] lemma movePlayer_height (g : Engine) : (movePlayer g).height = g.height := rfl

lemma shootPhase_calm_bullets (g : Engine) (h1 : g.keys "Space" = false)
    (h2 : g.keys "ArrowUp" = false) (h3 : g.keys "KeyW" = false) :
    (shootPhase g).1.bullets = g.bullets := by
  simp [shootPhase, h1, h2, h3]

lemma shootPhase_calm_events (g : Engine) (h1 : g.keys "Space" = false)
    (h2 : g.keys "ArrowUp" = false) (h3 : g.keys "KeyW" = false) :
    (shootPhase g).2 = [] := by
  simp [shootPhase, h1, h2, h3]

lemma collideStep_pb_bullets (env : Env) (b1 : Bullet)
    (hact : b1.active = true) (hpb : b1.isPlayerBullet = true) :
    ∀ (p : Player) (acc : CollideAcc),
      (collideStep env p acc b1).bullets =
        acc.bullets ++ [{ b1 with active := !(acc.enemies.any (hitsB b1)) }] := by
  intro p acc
  simp [collideStep, hact, hpb, hitFold_bActive]

lemma collideStep_pb_score (env : Env) (b1 : Bullet)
    (hact : b1.active = true) (hpb : b1.isPlayerBullet = true) :
    ∀ (p : Player) (acc : CollideAcc),
      (collideStep env p acc b1).score =
        acc.score + 100 * (acc.enemies.countP (hitsB b1) : ℚ) := by
  intro p acc
  simp [collideStep, hact, hpb, hitFold_score]

lemma collideStep_pb_events_count (env : Env) (b1 : Bullet)
    (hact : b1.active = true) (hpb : b1.isPlayerBullet = true) :
    ∀ (p : Player) (acc : CollideAcc),
      (collideStep env p acc b1).events.countP isScoreEv =
        acc.events.countP isScoreEv + acc.enemies.countP (hitsB b1) := by
  intro p acc
  simp [collideStep, hact, hpb, hitFold_events_count]

lemma collideStep_pb_state (env : Env) (b1 : Bullet)
    (hact : b1.active = true) (hpb : b1.isPlayerBullet = true) :
    ∀ (p : Player) (acc : CollideAcc),
      (collideStep env p acc b1).state = acc.state := by
  intro p acc
  simp [collideStep, hact, hpb]

/-- Effect of the formation tail when the only bullet is an active player
bullet, no wall is hit, no enemy reaches the player line and no enemy
fires: every overlapped enemy dies, score and score events grow by the
overlap count, and the bullet is compacted away when it hit anything. -/
lemma formationStep_pb (env : Env) (g3 : Engine) (pos : ℕ) (b1 : Bullet)
    (hb : g3.bullets = [b1]) (hact : b1.active = true) (hpb : b1.isPlayerBullet = true)
    (hnw : g3.enemies.any (wallHit g3.enemySpeed g3.enemyDirection g3.width) = false)
    (hnr : ∀ e ∈ g3.enemies, reaches g3.player.y e = false)
    (hnf : ∀ k : ℕ, ¬ env.rand k <
      0.001 * (1 + g3.score / 500) * (getDifficultyMultipliers g3.difficulty).2) :
    (formationStep env g3 pos).1.score = g3.score +
      100 * ((g3.enemies.map (moveOne g3.enemySpeed g3.enemyDirection)).countP (hitsB b1) : ℚ) ∧
    (formationStep env g3 pos).2.2.countP isScoreEv =
      (g3.enemies.map (moveOne g3.enemySpeed g3.enemyDirection)).countP (hitsB b1) ∧
    (formationStep env g3 pos).1.enemies =
      (g3.enemies.map (moveOne g3.enemySpeed g3.enemyDirection)).map (hitOne b1) ∧
    (0 < (g3.enemies.map (moveOne g3.enemySpeed g3.enemyDirection)).countP (hitsB b1) →
      (formationStep env g3 pos).1.bullets = []) := by
  simp only [formationStep, enemyPhase]
  have hev := fun acc => enemyFold_events_of_no_reach env
    (getDifficultyMultipliers g3.difficulty) g3.width g3.player.y g3.enemySpeed
    g3.enemyDirection g3.score g3.enemies acc hnr
  have hbull := enemyFold_bullets_of_no_fire env
    (getDifficultyMultipliers g3.difficulty) g3.width g3.player.y g3.enemySpeed
    g3.enemyDirection g3.score g3.enemies hnf
  simp only [enemyFold_enemies, enemyFold_hitWall, hev, hbull, Bool.false_or, hnw,
    List.nil_append, hb]
  simp only [wallPhase, Bool.false_eq_true, if_false, reduceIte]
  simp only [collidePhase, List.foldl_cons, List.foldl_nil]
  refine ⟨?_, ?_, ?_, ?_⟩
  · simp [collideStep_pb_score env b1 hact hpb]
  · simp [collideStep_pb_events_count env b1 hact hpb]
  · simp only [cleanupPhase_enemies]
    simp [collideStep_enemies, hact, hpb]
  · intro hk
    have hany : (g3.enemies.map (moveOne g3.enemySpeed g3.enemyDirection)).any (hitsB b1) = true := by
      rw [List.any_eq_true]
      obtain ⟨a, ha, hpa⟩ := List.countP_pos.1 hk
      exact ⟨a, ha, hpa⟩
    simp only [cleanupPhase]
    simp [collideStep_pb_bullets env b1 hact hpb, hany]

/-- C10: within one PLAYING update (single active player bullet, no fire
keys held, bullet staying on screen, no wall hit, no enemy reaching the
player line, no enemy fire), a bullet whose moved box overlaps k active
enemies at their moved positions deactivates all k of them — the sweep
keeps testing the bullet after it is flagged inactive — adds 100·k to the
score, invokes the score callback exactly k times, and the bullet itself is
compacted away whenever k ≥ 1. -/
theorem player_bullet_multi_kill (env : Env) (dt : ℚ) (g : Engine) (pos : ℕ) (b : Bullet)
    (hst : g.state = GameState.PLAYING)
    (hkeys : ∀ k, g.keys k = false)
    (hb_list : g.bullets = [b])
    (hbact : b.active = true)
    (hbp : b.isPlayerBullet = true)
    (hy0 : ¬ b.y + b.dy < 0) (hy1 : ¬ b.y + b.dy > g.height)
    (he : g.enemies.any (fun e => e.active) = true)
    (hnw : g.enemies.any (wallHit g.enemySpeed g.enemyDirection g.width) = false)
    (hnr : ∀ e ∈ g.enemies, reaches g.player.y e = false)
    (hnf : ∀ k : ℕ, ¬ env.rand k <
      0.001 * (1 + g.score / 500) * (getDifficultyMultipliers g.difficulty).2) :
    (update env dt g pos).1.score = g.score +
      100 * (g.enemies.countP
        (fun e => hitsB { b with y := b.y + b.dy }
          (moveOne g.enemySpeed g.enemyDirection e)) : ℚ) ∧
    (update env dt g pos).2.2.countP isScoreEv =
      g.enemies.countP
        (fun e => hitsB { b with y := b.y + b.dy } (moveOne g.enemySpeed g.enemyDirection e)) ∧
    (update env dt g pos).1.enemies =
      g.enemies.map
        (fun e => hitOne { b with y := b.y + b.dy } (moveOne g.enemySpeed g.enemyDirection e)) ∧
    (0 < g.enemies.countP
        (fun e => hitsB { b with y := b.y + b.dy } (moveOne g.enemySpeed g.enemyDirection e)) →
      (update env dt g pos).1.bullets = []) := by
  rw [update_playing env dt g pos hst]
  simp only [playingStep]
  obtain ⟨e0, he0mem, he0act⟩ := List.any_eq_true.1 he
  have hne : ¬ ((moveBullets (shootPhase (movePlayer g)).1).enemies.filter
      (fun e => e.active) = []) := by
    simp only [moveBullets_enemies, shootPhase_enemies, movePlayer_enemies]
    intro hcon
    have hmem : e0 ∈ g.enemies.filter (fun e => e.active) :=
      List.mem_filter.2 ⟨he0mem, by simpa using he0act⟩
    rw [hcon] at hmem
    exact absurd hmem (List.not_mem_nil e0)
  rw [if_neg hne]
  have hg3b : (moveBullets (shootPhase (movePlayer g)).1).bullets =
      [{ b with y := b.y + b.dy }] := by
    simp only [moveBullets]
    rw [shootPhase_calm_bullets (movePlayer g) (hkeys _) (hkeys _) (hkeys _),
      movePlayer_bullets, hb_list]
    simp [hy0, hy1]
  have hact1 : ({ b with y := b.y + b.dy } : Bullet).active = true := hbact
  have hpb1 : ({ b with y := b.y + b.dy } : Bullet).isPlayerBullet = true := hbp
  have hnw3 : (moveBullets (shootPhase (movePlayer g)).1).enemies.any
      (wallHit (moveBullets (shootPhase (movePlayer g)).1).enemySpeed
        (moveBullets (shootPhase (movePlayer g)).1).enemyDirection
        (moveBullets (shootPhase (movePlayer g)).1).width) = false := by
    simpa using hnw
  have hnr3 : ∀ e ∈ (moveBullets (shootPhase (movePlayer g)).1).enemies,
      reaches (moveBullets (shootPhase (movePlayer g)).1).player.y e = false := by
    simpa using hnr
  have hnf3 : ∀ k : ℕ, ¬ env.rand k <
      0.001 * (1 + (moveBullets (shootPhase (movePlayer g)).1).score / 500) *
        (getDifficultyMultipliers (moveBullets (shootPhase (movePlayer g)).1).difficulty).2 := by
    simpa using hnf
  obtain ⟨hS, hE, hEn, hB⟩ := formationStep_pb env (moveBullets (shootPhase (movePlayer g)).1)
    pos { b with y := b.y + b.dy } hg3b hact1 hpb1 hnw3 hnr3 hnf3
  have hsev : (shootPhase (movePlayer g)).2 = [] :=
    shootPhase_calm_events (movePlayer g) (hkeys _) (hkeys _) (hkeys _)
  refine ⟨?_, ?_, ?_, ?_⟩
  · simpa [List.countP_map, Function.comp] using hS
  · rw [show ((shootPhase (movePlayer g)).2 ++ (formationStep env
        (moveBullets (shootPhase (movePlayer g)).1) pos).2.2).countP isScoreEv =
        (formationStep env (moveBullets (shootPhase (movePlayer g)).1) pos).2.2.countP isScoreEv
      from by rw [hsev]; rfl]
    simpa [List.countP_map, Function.comp] using hE
  · simpa [List.map_map, Function.comp] using hEn
  · intro hk
    refine hB ?_
    rw [List.countP_map]
    simpa [Function.comp] using hk


/-- Every particle built by the emitter loop is some `spawnOne` output. -/
lemma spawnList_mem (env : Env) (x y : ℚ) (c : String) :
    ∀ (n pos : ℕ) (q : Particle), q ∈ (spawnList env x y c pos n).1 →
      ∃ k, q = (spawnOne env k x y c).1 := by
  intro n
  induction n with
  | zero => intro pos q hq; simp [spawnList] at hq
  | succ n ih =>
    intro pos q hq
    simp only [spawnList, List.mem_cons] at hq
    rcases hq with hq | hq
    · exact ⟨pos, hq⟩
    · exact ih _ q hq

/-- A freshly emitted particle survives its first physics tick: life drops
to 44 and the radius stays at least 0.2. -/
lemma stepParticle_spawnOne_active (env : Env) (x y : ℚ) (c : String) (k : ℕ)
    (hrand : ∀ j : ℕ, 0 ≤ env.rand j ∧ env.rand j < 1) :
    (stepParticle (spawnOne env k x y c).1).active = true := by
  simp only [stepParticle, spawnOne, PARTICLE_LIFE]
  have h1 : (0:ℚ) ≤ env.rand (if env.rand (k + 2) > 0.3 then k + 4 else k + 3) :=
    (hrand _).1
  rw [if_neg]
  intro hcon
  rcases hcon with hcon | hcon
  · norm_num at hcon
  · nlinarith [hcon]

lemma collideStep_eb (env : Env) (b1 : Bullet)
    (hact : b1.active = true) (hpb : b1.isPlayerBullet = false) :
    ∀ (p : Player) (acc : CollideAcc),
      rectOverlap b1.x b1.y b1.width b1.height p.x p.y p.width p.height = true →
      collideStep env p acc b1 =
        { bullets := acc.bullets ++ [{ b1 with active := false }]
          enemies := acc.enemies
          particles := acc.particles ++
            (spawnList env (p.x + p.width / 2) (p.y + p.height / 2) p.color acc.pos 40).1
          score := acc.score
          state := GameState.GAME_OVER
          events := acc.events ++ [Event.playExplosion, Event.stateUpdate GameState.GAME_OVER]
          pos := (spawnList env (p.x + p.width / 2) (p.y + p.height / 2) p.color acc.pos 40).2 } := by
  intro p acc hov
  simp [collideStep, hact, hpb, hov]


/-- Effect of the formation tail when the only bullet is an active enemy
bullet overlapping the player: the bullet is consumed, a 40-particle burst
at the player's center in the player's color is emitted — and survives the
same tick's particle physics — and the state becomes GAME_OVER with the
state callback invoked. -/
lemma formationStep_eb (env : Env) (g3 : Engine) (pos : ℕ) (b1 : Bullet)
    (hb : g3.bullets = [b1]) (hact : b1.active = true) (hpb : b1.isPlayerBullet = false)
    (hov : rectOverlap b1.x b1.y b1.width b1.height
      g3.player.x g3.player.y g3.player.width g3.player.height = true)
    (hnr : ∀ e ∈ g3.enemies, reaches g3.player.y e = false)
    (hnf : ∀ k : ℕ, ¬ env.rand k <
      0.001 * (1 + g3.score / 500) * (getDifficultyMultipliers g3.difficulty).2)
    (hnp : g3.particles = [])
    (hrand : ∀ j : ℕ, 0 ≤ env.rand j ∧ env.rand j < 1) :
    (formationStep env g3 pos).1.state = GameState.GAME_OVER ∧
    (formationStep env g3 pos).2.2 =
      [Event.playExplosion, Event.stateUpdate GameState.GAME_OVER] ∧
    (formationStep env g3 pos).1.bullets = [] ∧
    (formationStep env g3 pos).1.particles =
      ((spawnList env (g3.player.x + g3.player.width / 2)
        (g3.player.y + g3.player.height / 2) g3.player.color
        (pos + g3.enemies.countP (fun e => e.active)) 40).1).map stepParticle ∧
    (formationStep env g3 pos).1.particles.length = 40 := by
  simp only [formationStep, enemyPhase]
  have hev := fun acc => enemyFold_events_of_no_reach env
    (getDifficultyMultipliers g3.difficulty) g3.width g3.player.y g3.enemySpeed
    g3.enemyDirection g3.score g3.enemies acc hnr
  have hbull := enemyFold_bullets_of_no_fire env
    (getDifficultyMultipliers g3.difficulty) g3.width g3.player.y g3.enemySpeed
    g3.enemyDirection g3.score g3.enemies hnf
  simp only [hev, hbull, enemyFold_pos, List.nil_append, hb]
  simp only [collidePhase, wallPhase]
  split_ifs with hwp
  all_goals
    simp only [List.foldl_cons, List.foldl_nil]
    rw [collideStep_eb env b1 hact hpb _ _ (by simpa using hov)]
    refine ⟨by simp [cleanupPhase], by simp, ?_, ?_, ?_⟩
  all_goals
    simp only [cleanupPhase, hnp, List.nil_append]
  · simp
  · rw [List.filter_eq_self.2]
    intro q hq
    obtain ⟨q0, hq0mem, hq0⟩ := List.mem_map.1 hq
    obtain ⟨k, hk⟩ := spawnList_mem env _ _ _ _ _ q0 hq0mem
    rw [← hq0, hk]
    exact stepParticle_spawnOne_active env _ _ _ k hrand
  · rw [List.filter_eq_self.2, List.length_map, spawnList_length]
    intro q hq
    obtain ⟨q0, hq0mem, hq0⟩ := List.mem_map.1 hq
    obtain ⟨k, hk⟩ := spawnList_mem env _ _ _ _ _ q0 hq0mem
    rw [← hq0, hk]
    exact stepParticle_spawnOne_active env _ _ _ k hrand
  · simp
  · rw [List.filter_eq_self.2]
    intro q hq
    obtain ⟨q0, hq0mem, hq0⟩ := List.mem_map.1 hq
    obtain ⟨k, hk⟩ := spawnList_mem env _ _ _ _ _ q0 hq0mem
    rw [← hq0, hk]
    exact stepParticle_spawnOne_active env _ _ _ k hrand
  · rw [List.filter_eq_self.2, List.length_map, spawnList_length]
    intro q hq
    obtain ⟨q0, hq0mem, hq0⟩ := List.mem_map.1 hq
    obtain ⟨k, hk⟩ := spawnList_mem env _ _ _ _ _ q0 hq0mem
    rw [← hq0, hk]
    exact stepParticle_spawnOne_active env _ _ _ k hrand


@[simp] lemma movePlayer_player_height (g : Engine) : (movePlayer g).player.height = g.player.height := rfl

@[simp] lemma movePlayer_player_color (g : Engine) : (movePlayer g).player.color = g.player.color := rfl

@[simp] lemma shootPhase_player_height (g : Engine) : (shootPhase g).1.player.height = g.player.height := by
  simp only [shootPhase]; split_ifs <;> rfl

@[simp] lemma shootPhase_player_color (g : Engine) : (shootPhase g).1.player.color = g.player.color := by
  simp only [shootPhase]; split_ifs <;> rfl

/-- With no movement key held and the player in bounds, the clamp is the
identity. -/
lemma movePlayer_x_calm (g : Engine) (hkeys : ∀ k, g.keys k = false)
    (h0 : 0 ≤ g.player.x) (h1 : g.player.x ≤ g.width - g.player.width) :
    (movePlayer g).player.x = g.player.x := by
  simp only [movePlayer, hkeys, Bool.or_self, Bool.false_eq_true, if_false, reduceIte]
  rw [min_eq_right h1, max_eq_right h0]

/-- C6: during a PLAYING update (single active enemy bullet, no keys held,
player in bounds, bullet staying on screen, live formation that neither
reaches the player line nor fires), if the moved bullet's box overlaps the
player's box then the bullet is deactivated and compacted away, exactly 40
particles are spawned at the player's center with the player's color (all
surviving the same tick's particle physics), the state becomes GAME_OVER
with the state callback invoked, and every later update in GAME_OVER is a
no-op, so the state remains GAME_OVER. -/
theorem enemy_bullet_kills_player (env : Env) (dt : ℚ) (g : Engine) (pos : ℕ) (b : Bullet)
    (hst : g.state = GameState.PLAYING)
    (hkeys : ∀ k, g.keys k = false)
    (hpx0 : 0 ≤ g.player.x) (hpx1 : g.player.x ≤ g.width - g.player.width)
    (hb_list : g.bullets = [b])
    (hbact : b.active = true)
    (hbpe : b.isPlayerBullet = false)
    (hy0 : ¬ b.y + b.dy < 0) (hy1 : ¬ b.y + b.dy > g.height)
    (hover : rectOverlap b.x (b.y + b.dy) b.width b.height
      g.player.x g.player.y g.player.width g.player.height = true)
    (he : g.enemies.any (fun e => e.active) = true)
    (hnr : ∀ e ∈ g.enemies, reaches g.player.y e = false)
    (hnf : ∀ k : ℕ, ¬ env.rand k <
      0.001 * (1 + g.score / 500) * (getDifficultyMultipliers g.difficulty).2)
    (hnp : g.particles = [])
    (hrand : ∀ j : ℕ, 0 ≤ env.rand j ∧ env.rand j < 1) :
    (update env dt g pos).1.state = GameState.GAME_OVER ∧
    (update env dt g pos).2.2 =
      [Event.playExplosion, Event.stateUpdate GameState.GAME_OVER] ∧
    (update env dt g pos).1.bullets = [] ∧
    (update env dt g pos).1.particles =
      ((spawnList env (g.player.x + g.player.width / 2)
        (g.player.y + g.player.height / 2) g.player.color
        (pos + g.enemies.countP (fun e => e.active)) 40).1).map stepParticle ∧
    (update env dt g pos).1.particles.length = 40 ∧
    (∀ (env2 : Env) (dt2 : ℚ) (g2 : Engine) (pos2 : ℕ),
      g2.state = GameState.GAME_OVER → update env2 dt2 g2 pos2 = (g2, pos2, [])) := by
  rw [update_playing env dt g pos hst]
  simp only [playingStep]
  obtain ⟨e0, he0mem, he0act⟩ := List.any_eq_true.1 he
  have hne : ¬ ((moveBullets (shootPhase (movePlayer g)).1).enemies.filter
      (fun e => e.active) = []) := by
    simp only [moveBullets_enemies, shootPhase_enemies, movePlayer_enemies]
    intro hcon
    have hmem : e0 ∈ g.enemies.filter (fun e => e.active) :=
      List.mem_filter.2 ⟨he0mem, by simpa using he0act⟩
    rw [hcon] at hmem
    exact absurd hmem (List.not_mem_nil e0)
  rw [if_neg hne]
  have hg3b : (moveBullets (shootPhase (movePlayer g)).1).bullets =
      [{ b with y := b.y + b.dy }] := by
    simp only [moveBullets]
    rw [shootPhase_calm_bullets (movePlayer g) (hkeys _) (hkeys _) (hkeys _),
      movePlayer_bullets, hb_list]
    simp [hy0, hy1]
  have hgx : (moveBullets (shootPhase (movePlayer g)).1).player.x = g.player.x := by
    rw [moveBullets_player, shootPhase_player_x, movePlayer_x_calm g hkeys hpx0 hpx1]
  have hov3 : rectOverlap ({ b with y := b.y + b.dy } : Bullet).x
      ({ b with y := b.y + b.dy } : Bullet).y
      ({ b with y := b.y + b.dy } : Bullet).width
      ({ b with y := b.y + b.dy } : Bullet).height
      (moveBullets (shootPhase (movePlayer g)).1).player.x
      (moveBullets (shootPhase (movePlayer g)).1).player.y
      (moveBullets (shootPhase (movePlayer g)).1).player.width
      (moveBullets (shootPhase (movePlayer g)).1).player.height = true := by
    simp only [moveBullets_player, shootPhase_player_x, shootPhase_player_y,
      shootPhase_player_width, shootPhase_player_height, movePlayer_player_y,
      movePlayer_player_width, movePlayer_player_height,
      movePlayer_x_calm g hkeys hpx0 hpx1]
    simpa using hover
  have hnr3 : ∀ e ∈ (moveBullets (shootPhase (movePlayer g)).1).enemies,
      reaches (moveBullets (shootPhase (movePlayer g)).1).player.y e = false := by
    simpa using hnr
  have hnf3 : ∀ k : ℕ, ¬ env.rand k <
      0.001 * (1 + (moveBullets (shootPhase (movePlayer g)).1).score / 500) *
        (getDifficultyMultipliers (moveBullets (shootPhase (movePlayer g)).1).difficulty).2 := by
    simpa using hnf
  have hnp3 : (moveBullets (shootPhase (movePlayer g)).1).particles = [] := by
    simpa using hnp
  obtain ⟨h1, h2, h3, h4, h5⟩ := formationStep_eb env
    (moveBullets (shootPhase (movePlayer g)).1) pos { b with y := b.y + b.dy }
    hg3b hbact hbpe hov3 hnr3 hnf3 hnp3 hrand
  have hsev : (shootPhase (movePlayer g)).2 = [] :=
    shootPhase_calm_events (movePlayer g) (hkeys _) (hkeys _) (hkeys _)
  refine ⟨h1, ?_, h3, ?_, h5, ?_⟩
  · rw [hsev]
    simpa using h2
  · rw [h4]
    simp only [moveBullets_player, shootPhase_player_x, shootPhase_player_y,
      shootPhase_player_width, shootPhase_player_height, shootPhase_player_color,
      movePlayer_player_y, movePlayer_player_width, movePlayer_player_height,
      movePlayer_player_color, moveBullets_enemies, shootPhase_enemies,
      movePlayer_enemies, movePlayer_x_calm g hkeys hpx0 hpx1]
  · intro env2 dt2 g2 pos2 h
    simp [update, h]


/-- C1 (amended): `spawnParticles(x, y, baseColor, count)` appends exactly
`count` particles at (x, y), each with life = maxLife = 45, radius in
[2, 7), velocity `(cos θ · s, sin θ · s)` for a direction θ uniform in
[0, 2·π) and a speed magnitude s in [1, 5) (so `dx² + dy²` lies in
[1, 25) when the host trig satisfies cos² + sin² = 1); the color is
`baseColor` when the uniform color draw is ≤ 0.3 (probability 0.3), and
otherwise — probability 0.7, not the claimed 0.7/0.3 split in favor of
`baseColor` — it is indexed from the fixed four-color fire palette. -/
theorem spawnParticles_spec (env : Env) (g : Engine) (pos : ℕ) (x y : ℚ)
    (c : String) (count : ℕ)
    (hrand : ∀ j : ℕ, 0 ≤ env.rand j ∧ env.rand j < 1)
    (htrig : ∀ θ : ℚ, env.cosF θ ^ 2 + env.sinF θ ^ 2 = 1) :
    (spawnParticles env g pos x y c count).1.particles =
      g.particles ++ (spawnList env x y c pos count).1 ∧
    (spawnParticles env g pos x y c count).1.particles.length =
      g.particles.length + count ∧
    (∀ q ∈ (spawnList env x y c pos count).1,
      q.x = x ∧ q.y = y ∧ q.life = 45 ∧ q.maxLife = 45 ∧
      2 ≤ q.width ∧ q.width < 7 ∧
      1 ≤ q.dx ^ 2 + q.dy ^ 2 ∧ q.dx ^ 2 + q.dy ^ 2 < 25 ∧
      (q.color = c ∨ q.color ∈ fireColors)) ∧
    (∀ k : ℕ,
      (env.rand (k + 2) ≤ 0.3 → (spawnOne env k x y c).1.color = c) ∧
      (env.rand (k + 2) > 0.3 → (spawnOne env k x y c).1.color ∈ fireColors) ∧
      ∃ r s : ℚ, 0 ≤ r ∧ r < 1 ∧ 1 ≤ s ∧ s < 5 ∧
        (spawnOne env k x y c).1.dx = env.cosF (r * piQ * 2) * s ∧
        (spawnOne env k x y c).1.dy = env.sinF (r * piQ * 2) * s) := by
  have hpal : ∀ k : ℕ, env.rand (k + 2) > 0.3 →
      (spawnOne env k x y c).1.color ∈ fireColors := by
    intro k hrc
    have hrp := hrand (k + 3)
    have hfl0 : 0 ≤ ⌊env.rand (k + 3) * 4⌋ :=
      Int.floor_nonneg.2 (by nlinarith [hrp.1])
    have hfl1 : ⌊env.rand (k + 3) * 4⌋ < 4 :=
      Int.floor_lt.2 (by push_cast; nlinarith [hrp.2])
    have hidx : Int.toNat ⌊env.rand (k + 3) * 4⌋ < fireColors.length := by
      simp only [fireColors, List.length_cons, List.length_nil]
      omega
    simp only [spawnOne, pickColor, if_pos hrc]
    rw [List.getD_eq_getElem _ _ hidx]
    exact List.getElem_mem hidx
  refine ⟨by simp [spawnParticles], ?_, ?_, ?_⟩
  · simp [spawnParticles, spawnList_length]
  · intro q hq
    obtain ⟨k, hk⟩ := spawnList_mem env x y c count pos q hq
    subst hk
    obtain ⟨hs0, hs1⟩ := hrand (k + 1)
    obtain ⟨hw0, hw1⟩ := hrand (if env.rand (k + 2) > 0.3 then k + 4 else k + 3)
    have hsq : (spawnOne env k x y c).1.dx ^ 2 + (spawnOne env k x y c).1.dy ^ 2 =
        (env.rand (k + 1) * 4 + 1) ^ 2 := by
      simp only [spawnOne]
      have ht := htrig (env.rand k * piQ * 2)
      nlinarith [ht]
    refine ⟨rfl, rfl, rfl, rfl, ?_, ?_, ?_, ?_, ?_⟩
    · simp only [spawnOne]; linarith
    · simp only [spawnOne]; linarith
    · rw [hsq]; nlinarith
    · rw [hsq]; nlinarith
    · by_cases hrc : env.rand (k + 2) > 0.3
      · exact Or.inr (hpal k hrc)
      · exact Or.inl (by simp [spawnOne, pickColor, hrc])
  · intro k
    refine ⟨?_, hpal k, ?_⟩
    · intro hrc
      simp [spawnOne, pickColor, not_lt.2 hrc]
    · refine ⟨env.rand k, env.rand (k + 1) * 4 + 1, (hrand k).1, (hrand k).2, ?_, ?_, rfl, rfl⟩
      · linarith [(hrand (k + 1)).1]
      · linarith [(hrand (k + 1)).2]


-- Concrete fixtures used by the witness and counterexample theorems.

def keysW : String → Bool := fun _ => false

def envW : Env := { cosF := fun _ => 1, sinF := fun _ => 0, rand := fun _ => 1/2 }

def playerW : Player :=
  { x := 380, y := 540, width := 40, height := 30, dx := 0, dy := 0
    color := "#00ffff", active := true, cooldown := 0 }

def engineW : Engine :=
  { width := 800, height := 600, state := GameState.START, player := playerW
    enemies := [], bullets := [], particles := [], score := 0, keys := keysW
    enemyDirection := 1, enemySpeed := 1, difficulty := Difficulty.HARD
    countdownValue := 3, countdownTimer := 0 }

def gOverW : Engine := { engineW with state := GameState.GAME_OVER }

def gCDW : Engine := { engineW with state := GameState.COUNTDOWN }

def gVictW : Engine := { engineW with state := GameState.PLAYING }

def eWallW : Enemy :=
  { x := 0, y := 100, width := 30, height := 20, dx := 0, dy := 0
    color := "#39ff14", active := true, row := 0, col := 0 }

def gWallW : Engine :=
  { engineW with state := GameState.PLAYING, enemyDirection := -1, enemies := [eWallW] }

def e1W : Enemy :=
  { x := 80, y := 80, width := 30, height := 20, dx := 0, dy := 0
    color := "#39ff14", active := true, row := 0, col := 0 }

def e2W : Enemy :=
  { x := 85, y := 90, width := 30, height := 20, dx := 0, dy := 0
    color := "#39ff14", active := true, row := 0, col := 1 }

def bPW : Bullet :=
  { x := 100, y := 100, width := 3, height := 10, dx := 0, dy := -7
    color := "#ff00ff", active := true, isPlayerBullet := true }

def gMultiW : Engine :=
  { engineW with state := GameState.PLAYING, enemies := [e1W, e2W], bullets := [bPW] }

def bEW : Bullet :=
  { x := 390, y := 528, width := 3, height := 10, dx := 0, dy := 7
    color := "#ff3333", active := true, isPlayerBullet := false }

def eFarW : Enemy :=
  { x := 100, y := 60, width := 30, height := 20, dx := 0, dy := 0
    color := "#39ff14", active := true, row := 0, col := 0 }

def gEbW : Engine :=
  { engineW with state := GameState.PLAYING, enemies := [eFarW], bullets := [bEW] }

def gC2aW : Engine := { engineW with player := { playerW with x := 900 } }

def gC2xW : Engine := { engineW with player := { playerW with x := 780 } }

theorem update_noop_of_terminal_witness :
    gOverW.state = GameState.GAME_OVER ∧
    update envW 16 gOverW 0 = (gOverW, 0, []) :=
  ⟨rfl, update_noop_of_terminal envW 16 gOverW 0 (Or.inr (Or.inl rfl))⟩

theorem countdown_single_decrement_witness :
    gCDW.state = GameState.COUNTDOWN ∧
    (update envW 3000 gCDW 0).1.countdownValue = 2 ∧
    (update envW 3000 gCDW 0).1.state = GameState.COUNTDOWN :=
  ⟨rfl, (countdown_single_decrement envW 3000 gCDW 0 rfl).2 rfl rfl rfl⟩

theorem victory_on_empty_formation_witness :
    gVictW.state = GameState.PLAYING ∧
    gVictW.enemies.filter (fun e => e.active) = [] ∧
    (update envW 16 gVictW 0).1.state = GameState.VICTORY :=
  ⟨rfl, rfl, (victory_on_empty_formation envW 16 gVictW 0 rfl rfl).1⟩

theorem player_x_clamped_witness :
    gVictW.player.width ≤ gVictW.width ∧
    0 ≤ (update envW 16 gVictW 0).1.player.x ∧
    (update envW 16 gVictW 0).1.player.x ≤ gVictW.width - gVictW.player.width := by
  refine ⟨by norm_num [gVictW, engineW, playerW], ?_⟩
  exact player_x_clamped envW 16 gVictW 0 rfl (by norm_num [gVictW, engineW, playerW])

theorem wall_bounce_left_witness :
    gWallW.state = GameState.PLAYING ∧
    gWallW.enemyDirection = -1 ∧
    (update envW 16 gWallW 0).1.enemyDirection = 1 ∧
    (update envW 16 gWallW 0).1.enemySpeed = gWallW.enemySpeed + 0.2 := by
  have h := wall_bounce_left envW 16 gWallW 0 rfl rfl
    (by norm_num [gWallW, engineW]) eWallW (List.mem_cons_self _ _) rfl rfl
  exact ⟨rfl, rfl, h.1, h.2.1⟩

theorem resize_spec_witness :
    gC2aW.player.x > 790 ∧
    (resize 790 600 gC2aW).player.x = 790 - gC2aW.player.width ∧
    (resize 790 600 gC2aW).player.y = 600 - 60 := by
  have h := resize_spec 790 600 gC2aW
  exact ⟨by norm_num [gC2aW, engineW, playerW],
    h.2.2.2.1 (by norm_num [gC2aW, engineW, playerW]), h.2.2.1⟩

/-- The clamp the specification promises fails: after `resize(790, 600)` a
player at x = 780 with width 40 is left at 780, beyond
width − player.width = 750. -/
theorem resize_claim_counterexample :
    (resize 790 600 gC2xW).player.x = 780 ∧
    ¬ (resize 790 600 gC2xW).player.x ≤
      (resize 790 600 gC2xW).width - (resize 790 600 gC2xW).player.width := by
  norm_num [resize, gC2xW, engineW, playerW]


theorem spawnParticles_spec_witness :
    (∀ j : ℕ, 0 ≤ envW.rand j ∧ envW.rand j < 1) ∧
    (∀ θ : ℚ, envW.cosF θ ^ 2 + envW.sinF θ ^ 2 = 1) ∧
    (spawnParticles envW engineW 0 10 20 "#39ff14" 25).1.particles.length =
      engineW.particles.length + 25 :=
  ⟨fun j => by norm_num [envW], fun θ => by norm_num [envW],
   (spawnParticles_spec envW engineW 0 10 20 "#39ff14" 25
      (fun j => by norm_num [envW]) (fun θ => by norm_num [envW])).2.1⟩

/-- Count, over ten uniformly spaced color draws (the midpoints of a
ten-cell grid on [0,1)), how many keep the base color. -/
def baseKeepCount : ℕ :=
  (List.range 10).countP
    (fun k => decide (pickColor "#00ffff" ((2 * (k : ℚ) + 1) / 20) (1/2) = "#00ffff"))

/-- The color rule keeps `baseColor` on 3 of 10 uniform draws — probability
0.3, not the claimed 0.7 — and a draw of 0.5 (well inside the claimed
baseColor region) produces a palette color instead. -/
theorem spawnParticles_color_counterexample :
    baseKeepCount = 3 ∧ baseKeepCount ≠ 7 ∧
    pickColor "#00ffff" (1/2) (1/2) = "#ffaa00" := by
  have h3 : baseKeepCount = 3 := by
    unfold baseKeepCount
    rw [show List.range 10 = [0,1,2,3,4,5,6,7,8,9] from rfl]
    norm_num [pickColor, fireColors, List.countP_cons]
    decide
  refine ⟨h3, by rw [h3]; norm_num, ?_⟩
  norm_num [pickColor, fireColors]
  rfl

theorem player_bullet_multi_kill_witness :
    gMultiW.state = GameState.PLAYING ∧
    (gMultiW.enemies.countP
      (fun e => hitsB { bPW with y := bPW.y + bPW.dy }
        (moveOne gMultiW.enemySpeed gMultiW.enemyDirection e))) = 2 ∧
    (update envW 16 gMultiW 0).1.score = gMultiW.score + 100 * 2 ∧
    (update envW 16 gMultiW 0).2.2.countP isScoreEv = 2 ∧
    (update envW 16 gMultiW 0).1.bullets = [] := by
  have hk : (gMultiW.enemies.countP
      (fun e => hitsB { bPW with y := bPW.y + bPW.dy }
        (moveOne gMultiW.enemySpeed gMultiW.enemyDirection e))) = 2 := by
    show ([e1W, e2W].countP
      (fun e => hitsB { bPW with y := bPW.y + bPW.dy } (moveOne 1 1 e))) = 2
    norm_num [List.countP_cons, hitsB, moveOne, rectOverlap, e1W, e2W, bPW]
  have h := player_bullet_multi_kill envW 16 gMultiW 0 bPW rfl (fun k => rfl) rfl rfl rfl
    (by norm_num [bPW]) (by norm_num [bPW, gMultiW, engineW])
    rfl
    (by
      show ([e1W, e2W].any (wallHit 1 1 800)) = false
      norm_num [wallHit, e1W, e2W])
    (by
      intro e he
      have he2 : e ∈ [e1W, e2W] := he
      rcases List.mem_cons.1 he2 with rfl | he3
      · norm_num [reaches, e1W, gMultiW, engineW, playerW]
      · rcases List.mem_cons.1 he3 with rfl | he4
        · norm_num [reaches, e2W, gMultiW, engineW, playerW]
        · exact absurd he4 (List.not_mem_nil _))
    (by
      intro k
      show ¬ envW.rand k < 0.001 * (1 + gMultiW.score / 500) *
        (getDifficultyMultipliers gMultiW.difficulty).2
      norm_num [envW, gMultiW, engineW, getDifficultyMultipliers])
  refine ⟨rfl, hk, ?_, ?_, ?_⟩
  · rw [h.1, hk]
    norm_num
  · rw [h.2.1, hk]
  · exact h.2.2.2 (by rw [hk]; norm_num)


theorem enemy_bullet_kills_player_witness :
    gEbW.state = GameState.PLAYING ∧
    (update envW 16 gEbW 0).1.state = GameState.GAME_OVER ∧
    (update envW 16 gEbW 0).2.2 =
      [Event.playExplosion, Event.stateUpdate GameState.GAME_OVER] ∧
    (update envW 16 gEbW 0).1.bullets = [] ∧
    (update envW 16 gEbW 0).1.particles.length = 40 ∧
    (update envW 16 (update envW 16 gEbW 0).1 0).1.state = GameState.GAME_OVER := by
  have h := enemy_bullet_kills_player envW 16 gEbW 0 bEW rfl (fun k => rfl)
    (by norm_num [gEbW, engineW, playerW])
    (by norm_num [gEbW, engineW, playerW])
    rfl rfl rfl
    (by norm_num [bEW])
    (by norm_num [bEW, gEbW, engineW])
    (by norm_num [rectOverlap, bEW, gEbW, engineW, playerW])
    rfl
    (by
      intro e he
      have he2 : e ∈ [eFarW] := he
      rcases List.mem_cons.1 he2 with rfl | he3
      · norm_num [reaches, eFarW, gEbW, engineW, playerW]
      · exact absurd he3 (List.not_mem_nil _))
    (by
      intro k
      show ¬ envW.rand k < 0.001 * (1 + gEbW.score / 500) *
        (getDifficultyMultipliers gEbW.difficulty).2
      norm_num [envW, gEbW, engineW, getDifficultyMultipliers])
    rfl
    (fun j => by norm_num [envW])
  refine ⟨rfl, h.1, h.2.1, h.2.2.1, h.2.2.2.2.1, ?_⟩
  · rw [h.2.2.2.2.2 envW 16 (update envW 16 gEbW 0).1 0 h.1]
    exact h.1


end NeonBreacher
